import Mathlib

/-!
Verification of the buffered remote log handler (synapse/logging/_remote.py).

The development shallowly embeds the Python source:
- severity levels are the ordered enum of the data model, carrying the
  numeric `levelno` values used by the code (logging.DEBUG = 10, ...);
- `RemoteHandler._handle_pressure` becomes `handle_pressure`, with the
  deque pops of the middle-cut stage modelled as fallible (`Option`)
  operations so that the IndexError a pop on an empty deque would raise
  is representable;
- `RemoteHandler.emit` becomes `emit`, whose try/except around the
  pressure pass is the `Option.getD`-style match clearing the buffer;
- `LogProducer.resumeProducing` becomes `resumeProducing`, a fuel-bounded
  drain loop over an outcome oracle that says at which point (if any) the
  try block of each iteration raises;
- the connection dedupe logic of `RemoteHandler._connect` and its
  `whenConnected` callback become a small state machine;
- the endpoint selection of `RemoteHandler.__init__` becomes
  `selectEndpoint`, with the possibly-unbound local name `reactor`
  modelled explicitly.
-/

namespace Synapse

/-- Severity levels, ordered DEBUG < INFO < WARNING < ERROR < CRITICAL. -/
inductive Level where
  | debug
  | info
  | warning
  | error
  | critical
deriving DecidableEq, Repr

/-- The numeric value `record.levelno` the code compares against
(the stdlib values logging.DEBUG = 10, logging.INFO = 20, ...). -/
def Level.levelno : Level → Nat
  | .debug => 10
  | .info => 20
  | .warning => 30
  | .error => 40
  | .critical => 50

/-- The constant logging.DEBUG. -/
def DEBUG : Nat := 10

/-- The constant logging.INFO. -/
def INFO : Nat := 20

/-- The constant logging.WARNING. -/
def WARNING : Nat := 30

/-- A log record: a severity and an identity (arrival index); the
renderable payload is opaque to the core and identified by `id`. -/
structure LogRecord where
  id : Nat
  level : Level
deriving DecidableEq, Repr

/-- `deque.popleft()`: `none` models the IndexError on an empty deque. -/
def popleft : List α → Option (α × List α)
  | [] => none
  | x :: xs => some (x, xs)

/-- `deque.pop()` (pop from the right); `none` models the IndexError on
an empty deque. -/
def pop : List α → Option (α × List α)
  | [] => none
  | x :: xs =>
    match pop xs with
    | none => some (x, [])
    | some (a, l) => some (a, x :: l)

/-- The first shedding stage of `_handle_pressure`:
`deque(filter(lambda record: record.levelno > logging.DEBUG, buffer))`. -/
def stripDebugs (buffer : List LogRecord) : List LogRecord :=
  buffer.filter (fun record => decide (record.level.levelno > DEBUG))

/-- The second shedding stage of `_handle_pressure`:
`deque(filter(lambda record: record.levelno > logging.INFO, buffer))`. -/
def stripInfos (buffer : List LogRecord) : List LogRecord :=
  buffer.filter (fun record => decide (record.level.levelno > INFO))

/-- The loop `for i in range(n): new.append(old.popleft())`; fails if a
pop underflows. Returns the remaining old buffer and the new buffer. -/
def popleftLoop : Nat → List LogRecord → List LogRecord →
    Option (List LogRecord × List LogRecord)
  | 0, old, acc => some (old, acc)
  | n + 1, old, acc =>
    match popleft old with
    | none => none
    | some (x, rest) => popleftLoop n rest (acc ++ [x])

/-- The loop `for i in range(n): end_buffer.append(old.pop())`; fails if
a pop underflows. Returns the remaining old buffer and `end_buffer`. -/
def popLoop : Nat → List LogRecord → List LogRecord →
    Option (List LogRecord × List LogRecord)
  | 0, old, acc => some (old, acc)
  | n + 1, old, acc =>
    match pop old with
    | none => none
    | some (x, rest) => popLoop n rest (acc ++ [x])

/-- The middle-cut stage of `_handle_pressure` (lines 205-218): with
`buffer_split = floor(maximum_buffer / 2)`, pop `buffer_split` records
off the head into the new buffer, pop `buffer_split` records off the
tail into `end_buffer`, and extend the new buffer with
`reversed(end_buffer)`. `none` models an IndexError from a pop. -/
def cutMiddle (maximum_buffer : Nat) (buffer : List LogRecord) :
    Option (List LogRecord) :=
  let buffer_split := maximum_buffer / 2
  match popleftLoop buffer_split buffer [] with
  | none => none
  | some (old1, newBuf) =>
    match popLoop buffer_split old1 [] with
    | none => none
    | some (_, endBuf) => some (newBuf ++ endBuf.reverse)

/-- `RemoteHandler._handle_pressure` (lines 186-218): return unchanged if
within capacity; strip DEBUGs; if still over, strip INFOs; if still over,
cut the middle out. `none` models an exception escaping the method. -/
def handle_pressure (maximum_buffer : Nat) (buffer : List LogRecord) :
    Option (List LogRecord) :=
  if buffer.length ≤ maximum_buffer then some buffer
  else
    let b1 := stripDebugs buffer
    if b1.length ≤ maximum_buffer then some b1
    else
      let b2 := stripInfos b1
      if b2.length ≤ maximum_buffer then some b2
      else cutMiddle maximum_buffer b2

/-- `RemoteHandler.emit` (lines 220-233), restricted to its effect on the
buffer: append the record, then run the pressure pass inside try/except;
the except branch clears the buffer (`self._buffer.clear()`) and reports
the failure on the handler's internal logger. The trailing `_connect()`
call does not touch the buffer. -/
def emit (maximum_buffer : Nat) (buffer : List LogRecord)
    (record : LogRecord) : List LogRecord :=
  let b := buffer ++ [record]
  match handle_pressure maximum_buffer b with
  | some b2 => b2
  | none => []

/-- A WARNING record with the given arrival index. -/
def warnRecord (i : Nat) : LogRecord := ⟨i, Level.warning⟩

/-- Emit a list of records one at a time, starting from a buffer. -/
def emitAll (maximum_buffer : Nat) (buffer : List LogRecord)
    (records : List LogRecord) : List LogRecord :=
  records.foldl (emit maximum_buffer) buffer

/-- Spec-side predicate: the record's severity is strictly below `l`. -/
def severityBelow (r : LogRecord) (l : Level) : Prop :=
  r.level.levelno < l.levelno

instance (r : LogRecord) (l : Level) : Decidable (severityBelow r l) :=
  inferInstanceAs (Decidable (r.level.levelno < l.levelno))

/-- Where, if anywhere, the try block of one iteration of the drain loop
of `LogProducer.resumeProducing` raises: `ok` means both writes happen;
`failBefore` means `format` or the first `transport.write` raises before
any bytes of this record reach the transport; `failAfterMsg` means the
second `transport.write` (the newline) raises after the message bytes
were written. -/
inductive StepOutcome where
  | ok
  | failBefore
  | failAfterMsg
deriving DecidableEq, Repr

/-- The transport: its connected flag and the sequence of `write` calls
made on it, one chunk per call (chunk contents at string level; the
actual bytes are the UTF-8 encoding of each chunk). -/
structure Transport where
  connected : Bool
  chunks : List String
deriving DecidableEq, Repr

/-- The `LogProducer` state visible to the drain loop: its `_paused`
flag and the handler's buffer it drains. -/
structure Producer where
  paused : Bool
  buffer : List LogRecord
deriving DecidableEq, Repr

/-- The while loop of `LogProducer.resumeProducing` (lines 71-86):
while not paused, the buffer is non-empty and the transport is
connected, pop the head record, format it and write the message and a
newline as two `write` calls; on an exception, print the traceback and
break out of the loop (without touching `_paused`). The fuel bounds the
iteration count; `outcome i` says how iteration `i` behaves. -/
def drainLoop (format : LogRecord → String) (outcome : Nat → StepOutcome) :
    Nat → Nat → Producer → Transport → Producer × Transport
  | 0, _, p, t => (p, t)
  | fuel + 1, i, p, t =>
    if p.paused then (p, t)
    else if t.connected = false then (p, t)
    else
      match p.buffer with
      | [] => (p, t)
      | record :: rest =>
        match outcome i with
        | .ok =>
          drainLoop format outcome fuel (i + 1) { p with buffer := rest }
            { t with chunks := t.chunks ++ [format record, "\n"] }
        | .failBefore => ({ p with buffer := rest }, t)
        | .failAfterMsg =>
          ({ p with buffer := rest },
           { t with chunks := t.chunks ++ [format record] })

/-- `LogProducer.resumeProducing` (lines 63-86): clear `_paused`, then
run the drain loop. One unit of fuel per buffered record suffices, since
every iteration pops exactly one record. -/
def resumeProducing (format : LogRecord → String)
    (outcome : Nat → StepOutcome) (p : Producer) (t : Transport) :
    Producer × Transport :=
  drainLoop format outcome p.buffer.length 0 { p with paused := false } t

/-- The connection-manager state of `RemoteHandler`: whether
`_connection_waiter` is set, how many `whenConnected` requests have been
issued, which transport (by id) the current `LogProducer` is bound to,
and the transport of the `ClientService`'s live connection, if any. -/
structure ConnectionState where
  waiter : Bool
  whenConnectedCalls : Nat
  producer : Option Nat
  serviceTransport : Option Nat
deriving DecidableEq, Repr

/-- The synchronous body of `RemoteHandler._connect` (lines 142-150): if
a connection waiter is outstanding, return immediately; otherwise request
`self._service.whenConnected(failAfterFailures=1)`, registering a new
waiter. It never opens a transport itself: the `ClientService` owns the
actual TCP connection. -/
def connect (s : ConnectionState) : ConnectionState :=
  if s.waiter then s
  else { s with waiter := true, whenConnectedCalls := s.whenConnectedCalls + 1 }

/-- The `writer` callback of `_connect` (lines 158-175), fired when the
waiter resolves with a connection whose transport is `t`: if a producer
is already bound to this exact transport, resume it and clear the
waiter; otherwise stop any old producer, bind and resume a new producer
on `t`, and clear the waiter. -/
def writerCallback (s : ConnectionState) (t : Nat) : ConnectionState :=
  if s.producer = some t then { s with waiter := false }
  else { s with producer := some t, waiter := false }

/-- The manager is Connecting: a connection waiter is outstanding. -/
def Connecting (s : ConnectionState) : Prop := s.waiter = true

/-- The manager is Connected: the service holds a live connection. -/
def Connected (s : ConnectionState) : Prop := s.serviceTransport.isSome

/-- Outcome of `ipaddress.ip_address(host)`: an IPv4 literal, an IPv6
literal, or anything else (a ValueError; also covers the dead `else`
branch of the source, whose explicit ValueError lands in the same
`except ValueError` handler). -/
inductive HostKind where
  | ipv4
  | ipv6
  | other
deriving DecidableEq, Repr

/-- The endpoint built by `RemoteHandler.__init__`, tagged with the
reactor (by id) it captures. -/
inductive Endpoint where
  | tcp4 (reactor : Nat) (host : String) (port : Nat)
  | tcp6 (reactor : Nat) (host : String) (port : Nat)
  | hostname (reactor : Nat) (host : String) (port : Nat)
deriving DecidableEq, Repr

/-- The module-level `twisted.internet.reactor` singleton, as id 0;
injected reactors are modelled with non-zero ids. -/
def globalReactor : Nat := 0

/-- The endpoint selection of `RemoteHandler.__init__` (lines 117-132).
`reactorArg` is the `_reactor` parameter (`none` when the caller used
the default). `injected` is the value of `_reactor` after the
defaulting block. The local name `reactor` is bound (to the global
reactor, by `from twisted.internet import reactor`) only when
`reactorArg` was `none`; the hostname branch reads that local name, and
reading it unbound raises UnboundLocalError, modelled by
`Except.error`. -/
def selectEndpoint (parse : String → HostKind) (reactorArg : Option Nat)
    (host : String) (port : Nat) : Except String Endpoint :=
  let injected := reactorArg.getD globalReactor
  let localReactor : Option Nat :=
    if reactorArg.isNone then some globalReactor else none
  match parse host with
  | .ipv4 => .ok (.tcp4 injected host port)
  | .ipv6 => .ok (.tcp6 injected host port)
  | .other =>
    match localReactor with
    | some r => .ok (.hostname r host port)
    | none =>
      .error "UnboundLocalError: local variable reactor referenced before assignment"

/-- A concrete formatting capability rendering a record as its id. -/
def fmtId : LogRecord → String := fun r => toString r.id

/-- The outcome oracle of a run in which every write succeeds. -/
def allOk : Nat → StepOutcome := fun _ => StepOutcome.ok

/-- The outcome oracle of a run whose very first write raises. -/
def failFirst : Nat → StepOutcome := fun _ => StepOutcome.failBefore

/-! ## Lemmas about the pressure-relief pass -/

lemma popleftLoop_eq (n : Nat) :
    ∀ (old acc : List LogRecord), n ≤ old.length →
      popleftLoop n old acc = some (old.drop n, acc ++ old.take n) := by
  induction n with
  | zero => intro old acc _; simp [popleftLoop]
  | succ n ih =>
    intro old acc h
    cases old with
    | nil => simp at h
    | cons x rest =>
      have hr : n ≤ rest.length := by
        simp only [List.length_cons] at h; omega
      show popleftLoop n rest (acc ++ [x]) = _
      rw [ih rest (acc ++ [x]) hr]
      simp

lemma pop_concat (l : List α) (a : α) : pop (l ++ [a]) = some (a, l) := by
  induction l with
  | nil => rfl
  | cons x l ih => simp [pop, ih]

lemma popLoop_eq (n : Nat) :
    ∀ (old acc : List LogRecord), n ≤ old.length →
      popLoop n old acc =
        some (old.take (old.length - n),
              acc ++ (old.drop (old.length - n)).reverse) := by
  induction n with
  | zero =>
    intro old acc _
    simp [popLoop, List.take_length, List.drop_length]
  | succ n ih =>
    intro old acc h
    rcases List.eq_nil_or_concat old with rfl | ⟨l, a, rfl⟩
    · simp at h
    · rw [List.concat_eq_append] at h ⊢
      have hl : n ≤ l.length := by
        rw [List.length_append] at h; simp at h; omega
      have step : popLoop (n + 1) (l ++ [a]) acc = popLoop n l (acc ++ [a]) := by
        simp [popLoop, pop_concat]
      rw [step, ih l (acc ++ [a]) hl]
      have h1 : (l ++ [a]).length - (n + 1) = l.length - n := by
        rw [List.length_append]; simp
      rw [h1, List.take_append_of_le_length (by omega),
          List.drop_append_of_le_length (by omega)]
      simp

lemma cutMiddle_eq (cap : Nat) (b2 : List LogRecord) (h : cap < b2.length) :
    cutMiddle cap b2 =
      some (b2.take (cap / 2) ++ b2.drop (b2.length - cap / 2)) := by
  have hk2 : 2 * (cap / 2) ≤ cap := by omega
  have hk : cap / 2 ≤ b2.length := by omega
  have hk' : cap / 2 ≤ (b2.drop (cap / 2)).length := by
    rw [List.length_drop]; omega
  have h2 : (b2.drop (cap / 2)).drop ((b2.drop (cap / 2)).length - cap / 2)
      = b2.drop (b2.length - cap / 2) := by
    rw [List.drop_drop, List.length_drop]
    have h3 : cap / 2 + (b2.length - cap / 2 - cap / 2) = b2.length - cap / 2 := by
      omega
    rw [h3]
  unfold cutMiddle
  show (match popleftLoop (cap / 2) b2 [] with
        | none => none
        | some (old1, newBuf) =>
          match popLoop (cap / 2) old1 [] with
          | none => none
          | some (_, endBuf) => some (newBuf ++ endBuf.reverse))
      = _
  rw [popleftLoop_eq (cap / 2) b2 [] hk]
  show (match popLoop (cap / 2) (b2.drop (cap / 2)) [] with
        | none => none
        | some (_, endBuf) => some (([] ++ b2.take (cap / 2)) ++ endBuf.reverse))
      = _
  rw [popLoop_eq (cap / 2) (b2.drop (cap / 2)) [] hk']
  simp only [List.nil_append, List.reverse_reverse, h2]

lemma handle_pressure_some_le (cap : Nat) (buffer result : List LogRecord)
    (h : handle_pressure cap buffer = some result) : result.length ≤ cap := by
  by_cases h1 : buffer.length ≤ cap
  · simp only [handle_pressure, if_pos h1, Option.some_inj] at h
    cases h
    omega
  · by_cases h2 : (stripDebugs buffer).length ≤ cap
    · simp only [handle_pressure, if_neg h1, if_pos h2, Option.some_inj] at h
      cases h
      omega
    · by_cases h3 : (stripInfos (stripDebugs buffer)).length ≤ cap
      · simp only [handle_pressure, if_neg h1, if_neg h2, if_pos h3,
          Option.some_inj] at h
        cases h
        omega
      · simp only [handle_pressure, if_neg h1, if_neg h2, if_neg h3] at h
        rw [cutMiddle_eq cap _ (by omega)] at h
        have hlen : cap / 2 ≤ (stripInfos (stripDebugs buffer)).length := by omega
        cases h
        rw [List.length_append, List.length_take, List.length_drop]
        omega

lemma handle_pressure_isSome (cap : Nat) (buffer : List LogRecord) :
    (handle_pressure cap buffer).isSome = true := by
  by_cases h1 : buffer.length ≤ cap
  · simp [handle_pressure, if_pos h1]
  · by_cases h2 : (stripDebugs buffer).length ≤ cap
    · simp [handle_pressure, if_neg h1, if_pos h2]
    · by_cases h3 : (stripInfos (stripDebugs buffer)).length ≤ cap
      · simp [handle_pressure, if_neg h1, if_neg h2, if_pos h3]
      · simp only [handle_pressure, if_neg h1, if_neg h2, if_neg h3]
        rw [cutMiddle_eq cap _ (by omega)]
        rfl

lemma levelno_filter_debug (r : LogRecord) :
    decide (r.level.levelno > DEBUG) = decide (¬ severityBelow r Level.info) := by
  rcases r with ⟨i, lvl⟩
  cases lvl <;> rfl

lemma levelno_filter_info (r : LogRecord) :
    decide (r.level.levelno > INFO) = decide (¬ severityBelow r Level.warning) := by
  rcases r with ⟨i, lvl⟩
  cases lvl <;> rfl

lemma strip_preserves_warnings (buffer : List LogRecord) :
    (stripInfos (stripDebugs buffer)).filter
        (fun r => decide (Level.warning.levelno ≤ r.level.levelno))
      = buffer.filter (fun r => decide (Level.warning.levelno ≤ r.level.levelno)) := by
  unfold stripInfos stripDebugs
  rw [List.filter_filter, List.filter_filter]
  apply List.filter_congr
  intro r _
  rcases r with ⟨i, lvl⟩
  cases lvl <;> rfl

/-- C1: for a buffer over capacity, the first stage removes exactly the
records with severity strictly below INFO, keeping survivors in order
(it is a sublist of the input); only if still over capacity does the
second stage additionally remove the records strictly below WARNING,
again in order; the pass returns right after the stage that gets the
buffer within capacity; and the WARNING-or-higher records survive both
stages unchanged (same records, same order, same multiplicity). -/
theorem shedding_stage_order (cap : Nat) (buffer : List LogRecord)
    (h : cap < buffer.length) :
    stripDebugs buffer
        = buffer.filter (fun r => decide (¬ severityBelow r Level.info)) ∧
    List.Sublist (stripDebugs buffer) buffer ∧
    ((stripDebugs buffer).length ≤ cap →
      handle_pressure cap buffer = some (stripDebugs buffer)) ∧
    stripInfos (stripDebugs buffer)
        = (stripDebugs buffer).filter
            (fun r => decide (¬ severityBelow r Level.warning)) ∧
    List.Sublist (stripInfos (stripDebugs buffer)) (stripDebugs buffer) ∧
    (cap < (stripDebugs buffer).length →
      (stripInfos (stripDebugs buffer)).length ≤ cap →
      handle_pressure cap buffer = some (stripInfos (stripDebugs buffer))) ∧
    (stripInfos (stripDebugs buffer)).filter
        (fun r => decide (Level.warning.levelno ≤ r.level.levelno))
      = buffer.filter (fun r => decide (Level.warning.levelno ≤ r.level.levelno)) := by
  refine ⟨?_, ?_, ?_, ?_, ?_, ?_, ?_⟩
  · exact List.filter_congr (fun r _ => levelno_filter_debug r)
  · exact List.filter_sublist buffer
  · intro h1
    simp only [handle_pressure, if_neg (by omega : ¬ buffer.length ≤ cap),
      if_pos h1]
  · exact List.filter_congr (fun r _ => levelno_filter_info r)
  · exact List.filter_sublist (stripDebugs buffer)
  · intro h1 h2
    simp only [handle_pressure, if_neg (by omega : ¬ buffer.length ≤ cap),
      if_neg (by omega : ¬ (stripDebugs buffer).length ≤ cap), if_pos h2]
  · exact strip_preserves_warnings buffer

/-- Witness for C1 at capacity 2 and the buffer [DEBUG, INFO, WARNING]. -/
theorem shedding_stage_order_witness :
    2 < ([⟨0, Level.debug⟩, ⟨1, Level.info⟩, ⟨2, Level.warning⟩] :
          List LogRecord).length ∧
    (stripDebugs [⟨0, Level.debug⟩, ⟨1, Level.info⟩, ⟨2, Level.warning⟩]
        = List.filter (fun r => decide (¬ severityBelow r Level.info))
            [⟨0, Level.debug⟩, ⟨1, Level.info⟩, ⟨2, Level.warning⟩] ∧
      List.Sublist
        (stripDebugs [⟨0, Level.debug⟩, ⟨1, Level.info⟩, ⟨2, Level.warning⟩])
        [⟨0, Level.debug⟩, ⟨1, Level.info⟩, ⟨2, Level.warning⟩] ∧
      ((stripDebugs [⟨0, Level.debug⟩, ⟨1, Level.info⟩, ⟨2, Level.warning⟩]).length ≤ 2 →
        handle_pressure 2 [⟨0, Level.debug⟩, ⟨1, Level.info⟩, ⟨2, Level.warning⟩]
          = some (stripDebugs
              [⟨0, Level.debug⟩, ⟨1, Level.info⟩, ⟨2, Level.warning⟩])) ∧
      stripInfos (stripDebugs [⟨0, Level.debug⟩, ⟨1, Level.info⟩, ⟨2, Level.warning⟩])
          = List.filter (fun r => decide (¬ severityBelow r Level.warning))
              (stripDebugs [⟨0, Level.debug⟩, ⟨1, Level.info⟩, ⟨2, Level.warning⟩]) ∧
      List.Sublist
        (stripInfos (stripDebugs
          [⟨0, Level.debug⟩, ⟨1, Level.info⟩, ⟨2, Level.warning⟩]))
        (stripDebugs [⟨0, Level.debug⟩, ⟨1, Level.info⟩, ⟨2, Level.warning⟩]) ∧
      (2 < (stripDebugs [⟨0, Level.debug⟩, ⟨1, Level.info⟩, ⟨2, Level.warning⟩]).length →
        (stripInfos (stripDebugs
          [⟨0, Level.debug⟩, ⟨1, Level.info⟩, ⟨2, Level.warning⟩])).length ≤ 2 →
        handle_pressure 2 [⟨0, Level.debug⟩, ⟨1, Level.info⟩, ⟨2, Level.warning⟩]
          = some (stripInfos (stripDebugs
              [⟨0, Level.debug⟩, ⟨1, Level.info⟩, ⟨2, Level.warning⟩]))) ∧
      List.filter (fun r => decide (Level.warning.levelno ≤ r.level.levelno))
          (stripInfos (stripDebugs
            [⟨0, Level.debug⟩, ⟨1, Level.info⟩, ⟨2, Level.warning⟩]))
        = List.filter (fun r => decide (Level.warning.levelno ≤ r.level.levelno))
            [⟨0, Level.debug⟩, ⟨1, Level.info⟩, ⟨2, Level.warning⟩]) :=
  ⟨by decide,
   shedding_stage_order 2
     [⟨0, Level.debug⟩, ⟨1, Level.info⟩, ⟨2, Level.warning⟩] (by decide)⟩

/-- C2: on a buffer still over capacity after the severity stages, the
middle cut keeps exactly the first k and the last k records in current
order, k = floor(capacity / 2), discarding everything strictly between
them: the result is the head segment `take k` followed by the tail
segment `drop (length - k)`, and the tail segment is a sublist of the
input (its original relative order, not reversed). -/
theorem middle_cut_keeps_ends (cap : Nat) (b2 : List LogRecord)
    (h : cap < b2.length) :
    cutMiddle cap b2
        = some (b2.take (cap / 2) ++ b2.drop (b2.length - cap / 2)) ∧
    List.Sublist (b2.drop (b2.length - cap / 2)) b2 :=
  ⟨cutMiddle_eq cap b2 h, List.drop_sublist _ _⟩

/-- Witness for C2 at capacity 4 on a 6-record buffer: the cut keeps
records 0,1 and 4,5. -/
theorem middle_cut_keeps_ends_witness :
    4 < ((List.range 6).map warnRecord).length ∧
    (cutMiddle 4 ((List.range 6).map warnRecord)
        = some (((List.range 6).map warnRecord).take (4 / 2)
            ++ ((List.range 6).map warnRecord).drop
                (((List.range 6).map warnRecord).length - 4 / 2)) ∧
      List.Sublist
        (((List.range 6).map warnRecord).drop
          (((List.range 6).map warnRecord).length - 4 / 2))
        ((List.range 6).map warnRecord)) :=
  ⟨by decide, middle_cut_keeps_ends 4 ((List.range 6).map warnRecord) (by decide)⟩

/-- C3: for every positive capacity, a pressure pass that completes
normally leaves at most capacity records; a pass that reaches the
middle-cut stage leaves exactly 2 * floor(capacity / 2) records; and
emit keeps the buffer within capacity, the transient capacity + 1 state
existing only between emit's append and its pressure-relief call. -/
theorem pressure_pass_capacity_invariant (cap : Nat) (hcap : 0 < cap) :
    (∀ buffer result, handle_pressure cap buffer = some result →
      result.length ≤ cap) ∧
    (∀ buffer, cap < (stripInfos (stripDebugs buffer)).length →
      ∃ result, handle_pressure cap buffer = some result ∧
        result.length = 2 * (cap / 2)) ∧
    (∀ buffer record, buffer.length ≤ cap →
      (buffer ++ [record]).length ≤ cap + 1 ∧
      (emit cap buffer record).length ≤ cap) := by
  refine ⟨fun buffer result h => handle_pressure_some_le cap buffer result h,
    ?_, ?_⟩
  · intro buffer h3
    have h2 : cap < (stripDebugs buffer).length :=
      lt_of_lt_of_le h3 ((stripDebugs buffer).length_filter_le _)
    have h1 : cap < buffer.length :=
      lt_of_lt_of_le h2 (buffer.length_filter_le _)
    refine ⟨(stripInfos (stripDebugs buffer)).take (cap / 2)
        ++ (stripInfos (stripDebugs buffer)).drop
            ((stripInfos (stripDebugs buffer)).length - cap / 2), ?_, ?_⟩
    · simp only [handle_pressure, if_neg (by omega : ¬ buffer.length ≤ cap),
        if_neg (by omega : ¬ (stripDebugs buffer).length ≤ cap),
        if_neg (by omega : ¬ (stripInfos (stripDebugs buffer)).length ≤ cap)]
      exact cutMiddle_eq cap _ h3
    · rw [List.length_append, List.length_take, List.length_drop]
      omega
  · intro buffer record h
    refine ⟨by simp; omega, ?_⟩
    cases hp : handle_pressure cap (buffer ++ [record]) with
    | none => simp [emit, hp]
    | some b =>
      have he : emit cap buffer record = b := by simp [emit, hp]
      rw [he]
      exact handle_pressure_some_le cap (buffer ++ [record]) b hp

/-- Witness for C3 at capacity 1. -/
theorem pressure_pass_capacity_invariant_witness :
    0 < 1 ∧
    ((∀ buffer result, handle_pressure 1 buffer = some result →
        result.length ≤ 1) ∧
      (∀ buffer, 1 < (stripInfos (stripDebugs buffer)).length →
        ∃ result, handle_pressure 1 buffer = some result ∧
          result.length = 2 * (1 / 2)) ∧
      (∀ buffer record, buffer.length ≤ 1 →
        (buffer ++ [record]).length ≤ 1 + 1 ∧
        (emit 1 buffer record).length ≤ 1)) :=
  ⟨by decide, pressure_pass_capacity_invariant 1 (by decide)⟩

/-- C4 (Scenario C): with capacity 10, emitting the twenty WARNING
records w0..w19 one at a time leaves the buffer holding exactly
w0..w4 then w15..w19, in that order; once connected, a drain run
delivers exactly that sequence in that order. -/
theorem scenario_c_buffer :
    emitAll 10 [] ((List.range 20).map warnRecord)
      = [warnRecord 0, warnRecord 1, warnRecord 2, warnRecord 3, warnRecord 4,
         warnRecord 15, warnRecord 16, warnRecord 17, warnRecord 18,
         warnRecord 19] ∧
    (resumeProducing fmtId allOk
        ⟨true, emitAll 10 [] ((List.range 20).map warnRecord)⟩
        ⟨true, []⟩).2.chunks
      = ["0", "\n", "1", "\n", "2", "\n", "3", "\n", "4", "\n", "15", "\n",
         "16", "\n", "17", "\n", "18", "\n", "19", "\n"] := by
  exact ⟨by decide, by decide⟩

/-- C5: emit never propagates a failure of the pressure pass: its result
is the relieved buffer when the pass completes (`some`), and the cleared
buffer `[]` when the pass raises (`none`) — the `Option.getD []` of the
pass outcome, so emit is total for every record and every buffer. -/
theorem emit_exception_safe (cap : Nat) (buffer : List LogRecord)
    (record : LogRecord) :
    emit cap buffer record
      = (handle_pressure cap (buffer ++ [record])).getD [] := by
  cases hp : handle_pressure cap (buffer ++ [record]) <;> simp [emit, hp]

/-- C10: whenever the middle-cut stage is entered the buffer exceeds the
capacity and capacity bounds 2 * floor(capacity / 2), so the cut's pops
all succeed (no underflow, `isSome`), and the whole pressure pass can
never hit its error branch on any buffer. -/
theorem middle_cut_never_underflows (cap : Nat) (hcap : 0 < cap)
    (b2 : List LogRecord) (h : cap < b2.length) :
    2 * (cap / 2) ≤ cap ∧ (cutMiddle cap b2).isSome = true ∧
    ∀ buffer, (handle_pressure cap buffer).isSome = true := by
  refine ⟨by omega, ?_, fun buffer => handle_pressure_isSome cap buffer⟩
  rw [cutMiddle_eq cap b2 h]
  rfl

/-- Witness for C10 at capacity 1 and a 2-record buffer. -/
theorem middle_cut_never_underflows_witness :
    (0 < 1 ∧ 1 < ([warnRecord 0, warnRecord 1] : List LogRecord).length) ∧
    (2 * (1 / 2) ≤ 1 ∧ (cutMiddle 1 [warnRecord 0, warnRecord 1]).isSome = true ∧
      ∀ buffer, (handle_pressure 1 buffer).isSome = true) :=
  ⟨⟨by decide, by decide⟩,
   middle_cut_never_underflows 1 (by decide) [warnRecord 0, warnRecord 1]
     (by decide)⟩

/-! ## Lemmas about the writer's drain loop -/

lemma drainLoop_all_ok (format : LogRecord → String)
    (outcome : Nat → StepOutcome) :
    ∀ (buf : List LogRecord) (i : Nat) (t : Transport),
      (∀ m, m < buf.length → outcome (i + m) = StepOutcome.ok) →
      t.connected = true →
      drainLoop format outcome buf.length i ⟨false, buf⟩ t
        = (⟨false, []⟩,
           { t with chunks :=
               t.chunks ++ (buf.map (fun r => [format r, "\n"])).flatten }) := by
  intro buf
  induction buf with
  | nil => intro i t h hc; simp [drainLoop]
  | cons r rest ih =>
    intro i t h hc
    have h0 : outcome i = StepOutcome.ok := by
      have := h 0 (Nat.succ_pos rest.length)
      simpa using this
    have step : drainLoop format outcome (rest.length + 1) i ⟨false, r :: rest⟩ t
        = drainLoop format outcome rest.length (i + 1) ⟨false, rest⟩
            { t with chunks := t.chunks ++ [format r, "\n"] } := by
      simp [drainLoop, hc, h0]
    have hshift : ∀ m, m < rest.length → outcome (i + 1 + m) = StepOutcome.ok := by
      intro m hm
      have := h (m + 1) (by simp only [List.length_cons]; omega)
      have harith : i + (m + 1) = i + 1 + m := by omega
      rwa [harith] at this
    show drainLoop format outcome (rest.length + 1) i ⟨false, r :: rest⟩ t = _
    rw [step, ih (i + 1) { t with chunks := t.chunks ++ [format r, "\n"] } hshift hc]
    simp

lemma drainLoop_fail (format : LogRecord → String)
    (outcome : Nat → StepOutcome) :
    ∀ (buf : List LogRecord) (j i : Nat) (t : Transport) (hj : j < buf.length),
      (∀ m, m < j → outcome (i + m) = StepOutcome.ok) →
      outcome (i + j) ≠ StepOutcome.ok →
      t.connected = true →
      drainLoop format outcome buf.length i ⟨false, buf⟩ t
        = (⟨false, buf.drop (j + 1)⟩,
           { t with chunks :=
               t.chunks ++ ((buf.take j).map (fun r => [format r, "\n"])).flatten
                 ++ (if outcome (i + j) = StepOutcome.failAfterMsg
                     then [format (buf.get ⟨j, hj⟩)] else []) }) := by
  intro buf
  induction buf with
  | nil => intro j i t hj; exact absurd hj (by simp)
  | cons r rest ih =>
    intro j i t hj hok hfail hc
    cases j with
    | zero =>
      have h0 : outcome (i + 0) = outcome i := by rw [Nat.add_zero]
      rw [h0] at hfail
      obtain ⟨tc, tch⟩ := t
      replace hc : tc = true := hc
      subst hc
      show drainLoop format outcome (rest.length + 1) i ⟨false, r :: rest⟩
          ⟨true, tch⟩ = _
      cases ho : outcome i with
      | ok => exact absurd ho hfail
      | failBefore => simp [drainLoop, ho]
      | failAfterMsg => simp [drainLoop, ho]
    | succ j' =>
      have h0 : outcome i = StepOutcome.ok := by
        have := hok 0 (by omega)
        simpa using this
      have step : drainLoop format outcome (rest.length + 1) i ⟨false, r :: rest⟩ t
          = drainLoop format outcome rest.length (i + 1) ⟨false, rest⟩
              { t with chunks := t.chunks ++ [format r, "\n"] } := by
        simp [drainLoop, hc, h0]
      have hj' : j' < rest.length := by
        simp only [List.length_cons] at hj; omega
      have hshift : ∀ m, m < j' → outcome (i + 1 + m) = StepOutcome.ok := by
        intro m hm
        have := hok (m + 1) (by omega)
        have harith : i + (m + 1) = i + 1 + m := by omega
        rwa [harith] at this
      have harith : i + (j' + 1) = i + 1 + j' := by omega
      have hfail' : outcome (i + 1 + j') ≠ StepOutcome.ok := by
        rwa [harith] at hfail
      show drainLoop format outcome (rest.length + 1) i ⟨false, r :: rest⟩ t = _
      rw [step, ih j' (i + 1) { t with chunks := t.chunks ++ [format r, "\n"] }
        hj' hshift hfail' hc]
      rw [harith]
      simp

/-- C6 counterexample: a drain run whose first write fails leaves the
paused flag cleared (false), not set — `resumeProducing` sets
`_paused = False` on entry and the exception handler only breaks out of
the loop, never re-setting `_paused`. -/
theorem writer_failure_not_paused_counterexample :
    failFirst 0 ≠ StepOutcome.ok ∧
    (resumeProducing fmtId failFirst ⟨true, [warnRecord 0, warnRecord 1]⟩
        ⟨true, []⟩).1.paused = false := by
  exact ⟨by decide, rfl⟩

/-- C6 (amended): in every run of the drain loop whose step j fails
(a record-formatting or write failure), the loop stops — no record
beyond the failing one is popped or written, the failing record itself
being lost (and at most its message chunk, without newline, reaching
the transport) — and the Writer is left with its paused flag cleared
(false), not set, awaiting a future reconnect to resume it. (The
failure report is a traceback printed to stderr, outside this model.) -/
theorem writer_failure_stops_loop (format : LogRecord → String)
    (outcome : Nat → StepOutcome) (p : Producer) (t : Transport) (j : Nat)
    (hj : j < p.buffer.length)
    (hok : ∀ m, m < j → outcome m = StepOutcome.ok)
    (hfail : outcome j ≠ StepOutcome.ok) (hc : t.connected = true) :
    (resumeProducing format outcome p t).1.paused = false ∧
    (resumeProducing format outcome p t).1.buffer = p.buffer.drop (j + 1) ∧
    (resumeProducing format outcome p t).2.chunks
      = t.chunks ++ ((p.buffer.take j).map (fun r => [format r, "\n"])).flatten
          ++ (if outcome j = StepOutcome.failAfterMsg
              then [format (p.buffer.get ⟨j, hj⟩)] else []) := by
  have hok' : ∀ m, m < j → outcome (0 + m) = StepOutcome.ok := by
    intro m hm
    rw [Nat.zero_add]
    exact hok m hm
  have hfail' : outcome (0 + j) ≠ StepOutcome.ok := by
    rwa [Nat.zero_add]
  have hdrain := drainLoop_fail format outcome p.buffer j 0 t hj hok' hfail' hc
  rw [Nat.zero_add] at hdrain
  unfold resumeProducing
  rw [show ({ p with paused := false } : Producer) = ⟨false, p.buffer⟩ from rfl,
    hdrain]
  exact ⟨rfl, rfl, rfl⟩

/-- Witness for the amended C6: a run over two WARNING records whose
first write raises. -/
theorem writer_failure_stops_loop_witness :
    (0 < ([warnRecord 0, warnRecord 1] : List LogRecord).length ∧
      failFirst 0 ≠ StepOutcome.ok ∧ (true : Bool) = true) ∧
    ((resumeProducing fmtId failFirst ⟨true, [warnRecord 0, warnRecord 1]⟩
        ⟨true, []⟩).1.paused = false ∧
      (resumeProducing fmtId failFirst ⟨true, [warnRecord 0, warnRecord 1]⟩
          ⟨true, []⟩).1.buffer
        = ([warnRecord 0, warnRecord 1] : List LogRecord).drop (0 + 1) ∧
      (resumeProducing fmtId failFirst ⟨true, [warnRecord 0, warnRecord 1]⟩
          ⟨true, []⟩).2.chunks
        = ([] : List String)
            ++ ((([warnRecord 0, warnRecord 1] : List LogRecord).take 0).map
                (fun r => [fmtId r, "\n"])).flatten
            ++ (if failFirst 0 = StepOutcome.failAfterMsg
                then [fmtId (([warnRecord 0, warnRecord 1] :
                    List LogRecord).get ⟨0, by decide⟩)] else [])) :=
  ⟨⟨by decide, by decide, rfl⟩,
   writer_failure_stops_loop fmtId failFirst ⟨true, [warnRecord 0, warnRecord 1]⟩
     ⟨true, []⟩ 0 (by decide)
     (fun m hm => absurd hm (Nat.not_lt_zero m)) (by decide) rfl⟩

/-- C7: in a run where every step succeeds, each delivered record puts on
the transport exactly its rendering followed by exactly one newline and
no other framing, and the rendering goes out in a single `write` call
(one chunk), never split across two calls; the newline is the
immediately following `write` call. The buffer fully drains. -/
theorem record_wire_format (format : LogRecord → String)
    (outcome : Nat → StepOutcome) (p : Producer) (t : Transport)
    (hok : ∀ m, m < p.buffer.length → outcome m = StepOutcome.ok)
    (hc : t.connected = true) :
    (resumeProducing format outcome p t).2.chunks
      = t.chunks ++ (p.buffer.map (fun r => [format r, "\n"])).flatten ∧
    (resumeProducing format outcome p t).1.buffer = [] := by
  have hok' : ∀ m, m < p.buffer.length → outcome (0 + m) = StepOutcome.ok := by
    intro m hm
    rw [Nat.zero_add]
    exact hok m hm
  have hdrain := drainLoop_all_ok format outcome p.buffer 0 t hok' hc
  unfold resumeProducing
  rw [show ({ p with paused := false } : Producer) = ⟨false, p.buffer⟩ from rfl,
    hdrain]
  exact ⟨rfl, rfl⟩

/-- Witness for C7: two WARNING records drain as id, newline, id,
newline. -/
theorem record_wire_format_witness :
    ((∀ m, m < ([warnRecord 0, warnRecord 1] : List LogRecord).length →
        allOk m = StepOutcome.ok) ∧ (true : Bool) = true) ∧
    ((resumeProducing fmtId allOk ⟨true, [warnRecord 0, warnRecord 1]⟩
        ⟨true, []⟩).2.chunks
      = ([] : List String)
          ++ (([warnRecord 0, warnRecord 1] : List LogRecord).map
              (fun r => [fmtId r, "\n"])).flatten ∧
      (resumeProducing fmtId allOk ⟨true, [warnRecord 0, warnRecord 1]⟩
          ⟨true, []⟩).1.buffer = []) :=
  ⟨⟨fun m _ => rfl, rfl⟩,
   record_wire_format fmtId allOk ⟨true, [warnRecord 0, warnRecord 1]⟩
     ⟨true, []⟩ (fun m _ => rfl) rfl⟩

/-- C8 counterexample: in a Connected state with no outstanding waiter
(the `writer` callback ends with `self._connection_waiter = None`), a
further connect() call is not a no-op: it changes the state by
registering a new `whenConnected` waiter. -/
theorem connect_connected_not_noop_counterexample :
    Connected ⟨false, 1, some 0, some 0⟩ ∧
    connect ⟨false, 1, some 0, some 0⟩ ≠ ⟨false, 1, some 0, some 0⟩ :=
  ⟨rfl, by decide⟩

/-- C8 (amended): a connect() call while a connection waiter is
outstanding — in particular whenever Connecting — is a no-op; once
Connected with the waiter cleared, connect() is not a no-op: it
registers exactly one new `whenConnected` waiter, whose callback
resumes the producer already bound to the live connection's transport
and clears the waiter again, leaving the producer binding unchanged —
it creates no second transport connection and rebinds nothing. -/
theorem connect_dedupe (s : ConnectionState) :
    (s.waiter = true → connect s = s) ∧
    (∀ t, s.waiter = false → s.serviceTransport = some t →
      s.producer = some t →
      connect s = { s with
          waiter := true,
          whenConnectedCalls := s.whenConnectedCalls + 1 } ∧
      writerCallback (connect s) t
        = { s with whenConnectedCalls := s.whenConnectedCalls + 1 }) := by
  constructor
  · intro h
    simp [connect, h]
  · intro t hw hst hp
    constructor
    · simp [connect, hw]
    · simp [connect, writerCallback, hw, hp]

/-- Witness for the amended C8 at a Connected state bound to
transport 0. -/
theorem connect_dedupe_witness :
    ((⟨false, 1, some 0, some 0⟩ : ConnectionState).waiter = true →
      connect ⟨false, 1, some 0, some 0⟩ = ⟨false, 1, some 0, some 0⟩) ∧
    (∀ t, (⟨false, 1, some 0, some 0⟩ : ConnectionState).waiter = false →
      (⟨false, 1, some 0, some 0⟩ : ConnectionState).serviceTransport = some t →
      (⟨false, 1, some 0, some 0⟩ : ConnectionState).producer = some t →
      connect ⟨false, 1, some 0, some 0⟩
        = { (⟨false, 1, some 0, some 0⟩ : ConnectionState) with
            waiter := true,
            whenConnectedCalls :=
              (⟨false, 1, some 0, some 0⟩ : ConnectionState).whenConnectedCalls
                + 1 } ∧
      writerCallback (connect ⟨false, 1, some 0, some 0⟩) t
        = { (⟨false, 1, some 0, some 0⟩ : ConnectionState) with
            whenConnectedCalls :=
              (⟨false, 1, some 0, some 0⟩ : ConnectionState).whenConnectedCalls
                + 1 }) :=
  connect_dedupe ⟨false, 1, some 0, some 0⟩

/-- C9: endpoint selection of the constructor. IPv4 and IPv6 literals
build direct endpoints carrying the reactor in use (injected id 7
here), and a hostname under the default reactor resolves via a hostname
endpoint on the global reactor; but a hostname with an injected reactor
does not use the injected reactor: the hostname branch reads the local
name `reactor`, which is bound only by the default-reactor import, so
construction fails with UnboundLocalError instead of succeeding. -/
theorem endpoint_selection_reactor_bug :
    selectEndpoint (fun _ => HostKind.ipv4) (some 7) "10.1.2.3" 9000
      = Except.ok (Endpoint.tcp4 7 "10.1.2.3" 9000) ∧
    selectEndpoint (fun _ => HostKind.ipv6) (some 7) "fe80::1" 9000
      = Except.ok (Endpoint.tcp6 7 "fe80::1" 9000) ∧
    selectEndpoint (fun _ => HostKind.other) none "logs.example.com" 9000
      = Except.ok (Endpoint.hostname globalReactor "logs.example.com" 9000) ∧
    selectEndpoint (fun _ => HostKind.other) (some 7) "logs.example.com" 9000
      = Except.error
          "UnboundLocalError: local variable reactor referenced before assignment" :=
  ⟨rfl, rfl, rfl, rfl⟩

end Synapse
